import Mathlib

/-!
Verification of the awsutil instrumentation layer (src/awsutil/util.go):
a TTL cache (`APICache`) wrapping a ccache store, and a session factory
(`NewSession`) that attaches a Prometheus-instrumented send hook.

Time is modelled as `Int` nanoseconds (Go `time.Now().UnixNano()`), TTL
durations as `Int` nanoseconds, and cache values generically.
-/

/-- A ccache item: a stored value together with its absolute expiration
timestamp in nanoseconds, as set by `ccache.Cache.Set`
(`expires = now + duration`). -/
structure CItem (α : Type) where
  value : α
  expires : Int
deriving DecidableEq

/-- The underlying ccache store (github.com/karlseguin/ccache): a map from
string keys to items. Modelled as a function; the library returns the stored
item on `Get` even when it has expired (lazy physical eviction). -/
structure Cache (α : Type) where
  store : String → Option (CItem α)

/-- ccache `Cache.Get`: returns the stored item or nil; it does NOT filter
expired items (the library documents that Get can return an expired item). -/
def ccacheGet {α : Type} (c : Cache α) (key : String) : Option (CItem α) :=
  c.store key

/-- ccache `Item.Expired()`: true when the absolute expiration timestamp is
strictly before the current time (`item.expires < time.Now().UnixNano()`). -/
def itemExpired {α : Type} (i : CItem α) (now : Int) : Bool :=
  i.expires < now

/-- ccache `Cache.Set`: stores `value` under `key` with absolute expiry
`now + duration`, overwriting any existing entry for that key. -/
def ccacheSet {α : Type} (c : Cache α) (key : String) (value : α)
    (duration : Int) (now : Int) : Cache α :=
  ⟨fun k => if k = key then some ⟨value, now + duration⟩ else c.store k⟩

/-- `APICache` from src/awsutil/util.go line 24: a wrapper holding a ccache
pointer. -/
structure APICache (α : Type) where
  cache : Cache α

/-- A freshly constructed (or unavailable / null-object) cache: its store
holds no entry, so every lookup misses. -/
def freshCache (α : Type) : APICache α :=
  ⟨⟨fun _ => none⟩⟩

/-- `APICache.Get` from src/awsutil/util.go lines 117-123:
`i := ac.cache.Get(key); if i == nil || i.Expired() { return nil }; return i`.
`now` is the wall-clock time at which `Expired` is evaluated. -/
def APICache.Get {α : Type} (ac : APICache α) (key : String) (now : Int) :
    Option (CItem α) :=
  match ccacheGet ac.cache key with
  | none => none
  | some i => if itemExpired i now then none else some i

/-- `APICache.Set` from src/awsutil/util.go lines 126-128:
`ac.cache.Set(key, value, duration)`. `now` is the wall-clock time of the
call, from which ccache computes the absolute expiry. -/
def APICache.Set {α : Type} (ac : APICache α) (key : String) (value : α)
    (duration : Int) (now : Int) : APICache α :=
  ⟨ccacheSet ac.cache key value duration now⟩

/-- The state of the Prometheus collectors registered in
src/awsutil/util.go lines 15-85. Label vectors are maps from a label pair
to a count: `awsErrorCount` is labeled (service, request), `awsCache` is
labeled (cache, action), `awsRequest` is labeled (service, operation). -/
structure MetricsState where
  onUpdateCount : Nat
  reloadCount : Nat
  awsErrorCount : (String × String) → Nat
  managedIngresses : Int
  awsCache : (String × String) → Nat
  awsRequest : (String × String) → Nat

/-- `CounterVec.With(labels).Add(1)`: increment the counter at one label
pair, leaving every other label pair unchanged. -/
def incCounter (c : (String × String) → Nat) (l : String × String) :
    (String × String) → Nat :=
  fun l2 => if l2 = l then c l2 + 1 else c l2

/-- A metrics state in which every collector is zero, as at process start
(fresh Prometheus counters). -/
def zeroMetrics : MetricsState :=
  ⟨0, 0, fun _ => 0, 0, fun _ => 0, fun _ => 0⟩

/-- An outbound AWS request as seen by the send hook: the fields of
`request.Request` that the hook in src/awsutil/util.go lines 95-100 reads.
`operationStr` and `params` are the opaque string renderings of
`r.Operation` and `r.Params` used in the debug log line. -/
structure Request where
  serviceName : String
  operationName : String
  operationStr : String
  params : String
deriving DecidableEq

/-- The debug trace line emitted by the hook:
`log.Infof("Request: %s/%s, Payload: %s", "aws", r.ClientInfo.ServiceName,
r.Operation, r.Params)`. -/
def requestLogLine (r : Request) : String :=
  "Request: " ++ r.serviceName ++ "/" ++ r.operationStr ++ ", Payload: "
    ++ r.params

/-- The send hook pushed by `NewSession` (src/awsutil/util.go lines
95-100): increments the request counter at (service name, operation name)
taken from the request, and, when the global `AWSDebug` flag is set at the
time the hook runs, appends one trace line to the log. -/
def sendHook (awsDebug : Bool) (r : Request) (m : MetricsState)
    (lg : List String) : MetricsState × List String :=
  let m2 : MetricsState :=
    ⟨m.onUpdateCount, m.reloadCount, m.awsErrorCount, m.managedIngresses,
      m.awsCache,
      incCounter m.awsRequest (r.serviceName, r.operationName)⟩
  if awsDebug then (m2, lg ++ [requestLogLine r]) else (m2, lg)

/-- A session handle: the list of custom send hooks attached to the
underlying aws session (`session.Handlers.Send`), front first. A hook
receives the `AWSDebug` flag as read when it runs. -/
structure SessionHandle where
  sendHooks :
    List (Bool → Request → MetricsState → List String →
      MetricsState × List String)

/-- `NewSession` from src/awsutil/util.go lines 88-102. The underlying
`session.NewSession(awsconfig)` call is external to this repository; its
outcome is passed in as `res`. On error the function increments the error
counter at ("AWS", "NewSession"), logs an error line, and returns the nil
sentinel; on success it pushes the send hook at the front of the send
handler list and returns the session. -/
def NewSession (res : Except String SessionHandle) (m : MetricsState)
    (lg : List String) :
    Option SessionHandle × MetricsState × List String :=
  match res with
  | Except.error e =>
      (none,
        ⟨m.onUpdateCount, m.reloadCount,
          incCounter m.awsErrorCount ("AWS", "NewSession"),
          m.managedIngresses, m.awsCache, m.awsRequest⟩,
        lg ++ ["Failed to create AWS session. Error: " ++ e ++ "."])
  | Except.ok s => (some ⟨sendHook :: s.sendHooks⟩, m, lg)

/-- Modelled from the spec: the aws-sdk-go send pipeline (not part of this
repository). Sending a request runs the send handlers synchronously in
list order and then transmits the request, unchanged, on the wire. The
wire records, for each departed request, the metrics state at the moment
of departure. -/
def sdkSend
    (hooks :
      List (Bool → Request → MetricsState → List String →
        MetricsState × List String))
    (awsDebug : Bool) (r : Request) (m : MetricsState) (lg : List String)
    (wire : List (Request × MetricsState)) :
    MetricsState × List String × List (Request × MetricsState) :=
  let p := hooks.foldl (fun acc h => h awsDebug r acc.1 acc.2) (m, lg)
  (p.1, p.2, wire ++ [(r, p.1)])

/-- `APICache.Get` seen as acting on the metrics state as well as the
cache: the method body (src/awsutil/util.go lines 117-123) contains no
counter operation, so its action on the metrics state is the identity. -/
def APICache.GetWithMetrics {α : Type} (ac : APICache α) (key : String)
    (now : Int) (m : MetricsState) : Option (CItem α) × MetricsState :=
  (APICache.Get ac key now, m)

/-- `APICache.Set` seen as acting on the metrics state as well as the
cache: the method body (src/awsutil/util.go lines 126-128) contains no
counter operation, so its action on the metrics state is the identity. -/
def APICache.SetWithMetrics {α : Type} (ac : APICache α) (key : String)
    (value : α) (duration : Int) (now : Int) (m : MetricsState) :
    APICache α × MetricsState :=
  (APICache.Set ac key value duration now, m)

/-- Modelled from the spec: the caller-side cache accounting. The callers
of `APICache.Get` in this repository are not under src/; per the spec,
every Get is recorded in the cache counter under a collaborator-chosen
cache name with action "hit" when a non-expired entry is returned and
"miss" otherwise. -/
def accountedGet {α : Type} (name : String) (ac : APICache α)
    (key : String) (now : Int) (m : MetricsState) :
    Option (CItem α) × MetricsState :=
  match APICache.Get ac key now with
  | none =>
      (none,
        ⟨m.onUpdateCount, m.reloadCount, m.awsErrorCount,
          m.managedIngresses, incCounter m.awsCache (name, "miss"),
          m.awsRequest⟩)
  | some i =>
      (some i,
        ⟨m.onUpdateCount, m.reloadCount, m.awsErrorCount,
          m.managedIngresses, incCounter m.awsCache (name, "hit"),
          m.awsRequest⟩)

/-- Modelled from the spec: the caller-side cache accounting for Set. The
callers of `APICache.Set` in this repository are not under src/; per the
spec, every Set is recorded in the cache counter under a
collaborator-chosen cache name with action "set". -/
def accountedSet {α : Type} (name : String) (ac : APICache α)
    (key : String) (value : α) (duration : Int) (now : Int)
    (m : MetricsState) : APICache α × MetricsState :=
  (APICache.Set ac key value duration now,
    ⟨m.onUpdateCount, m.reloadCount, m.awsErrorCount, m.managedIngresses,
      incCounter m.awsCache (name, "set"), m.awsRequest⟩)

/-- C6: for every key k, value v and ttl > 0, a Get made before the ttl has
elapsed (in particular immediately, at the very time of the Set) returns the
value v just set. -/
theorem apiCache_set_then_get {α : Type} (ac : APICache α) (k : String)
    (v : α) (ttl t tg : Int) (_h1 : 0 < ttl) (h2 : tg < t + ttl) :
    APICache.Get (APICache.Set ac k v ttl t) k tg = some ⟨v, t + ttl⟩ := by
  have hx : ¬ (t + ttl < tg) := by omega
  simp [APICache.Get, APICache.Set, ccacheGet, ccacheSet, itemExpired, hx]

/-- C6 witness: Set("a", 42, ttl 5ns) at time 0, Get("a") at time 0 returns
the item holding 42. -/
theorem apiCache_set_then_get_witness :
    APICache.Get (APICache.Set (freshCache Nat) "a" 42 5 0) "a" 0
      = some ⟨42, 5⟩ :=
  apiCache_set_then_get (freshCache Nat) "a" 42 5 0 0 (by decide) (by decide)

/-- C7: a Set with zero or negative ttl expires immediately: every Get at a
strictly later wall-clock time returns absent. (At the exact same
nanosecond as a Set with ttl = 0 the entry is still visible, since
`Item.Expired` uses a strict comparison; a subsequent call happens at a
strictly later time.) -/
theorem apiCache_set_nonpositive_ttl {α : Type} (ac : APICache α)
    (k : String) (v : α) (ttl t tg : Int) (h1 : ttl ≤ 0) (h2 : t < tg) :
    APICache.Get (APICache.Set ac k v ttl t) k tg = none := by
  have hx : t + ttl < tg := by omega
  simp [APICache.Get, APICache.Set, ccacheGet, ccacheSet, itemExpired, hx]

/-- C7 witness: Set("a", 42, ttl 0) at time 0, Get("a") at time 1 returns
absent. -/
theorem apiCache_set_nonpositive_ttl_witness :
    APICache.Get (APICache.Set (freshCache Nat) "a" 42 0 0) "a" 1 = none :=
  apiCache_set_nonpositive_ttl (freshCache Nat) "a" 42 0 0 1 (by decide)
    (by decide)

/-- C8: Set overwrites an existing entry for the same key: after
Set(k, v1, ttl) at ta and Set(k, v2, ttl) at tb, a Get(k) before the second
ttl elapses returns v2 (the last Set wins). -/
theorem apiCache_set_overwrites {α : Type} (ac : APICache α) (k : String)
    (v1 v2 : α) (ttl ta tb tg : Int) (h : tg < tb + ttl) :
    APICache.Get
        (APICache.Set (APICache.Set ac k v1 ttl ta) k v2 ttl tb) k tg
      = some ⟨v2, tb + ttl⟩ := by
  have hx : ¬ (tb + ttl < tg) := by omega
  simp [APICache.Get, APICache.Set, ccacheGet, ccacheSet, itemExpired, hx]

/-- C8 witness: Set("a", 1, 10); Set("a", 2, 10); Get("a") at time 3 returns
the item holding 2. -/
theorem apiCache_set_overwrites_witness :
    APICache.Get
        (APICache.Set (APICache.Set (freshCache Nat) "a" 1 10 0) "a" 2 10 0)
        "a" 3
      = some ⟨2, 10⟩ :=
  apiCache_set_overwrites (freshCache Nat) "a" 1 2 10 0 0 3 (by decide)

/-- C10: Set is local to its key: for every other key, Get returns the same
result before and after the Set. -/
theorem apiCache_set_frame {α : Type} (ac : APICache α) (k k2 : String)
    (v : α) (ttl t tg : Int) (h : k2 ≠ k) :
    APICache.Get (APICache.Set ac k v ttl t) k2 tg
      = APICache.Get ac k2 tg := by
  simp [APICache.Get, APICache.Set, ccacheGet, ccacheSet, h]

/-- C10 witness: on a cache where "b" holds 7 (never expiring before time
100), Set("a", 1, 10) at time 0 leaves Get("b") at time 5 unchanged. -/
theorem apiCache_set_frame_witness :
    APICache.Get
        (APICache.Set (APICache.Set (freshCache Nat) "b" 7 100 0) "a" 1 10 0)
        "b" 5
      = APICache.Get (APICache.Set (freshCache Nat) "b" 7 100 0) "b" 5 :=
  apiCache_set_frame (APICache.Set (freshCache Nat) "b" 7 100 0) "a" "b" 1 10
    0 5 (by decide)

/-- C2: Get returns absent iff the key was never set or the ttl of its most
recent Set has elapsed (strictly, per the strict comparison in
`Item.Expired`) at the wall-clock time of the call; after expiry the
underlying store still physically holds the entry, yet Get hides it, and
this holds for every later call. -/
theorem apiCache_get_absent_iff {α : Type} (ac : APICache α) (k : String)
    (v : α) (ttl t tg : Int) :
    (APICache.Get (freshCache α) k tg = none)
    ∧ (APICache.Get (APICache.Set ac k v ttl t) k tg = none
        ↔ t + ttl < tg)
    ∧ (t + ttl < tg →
        ccacheGet (APICache.Set ac k v ttl t).cache k = some ⟨v, t + ttl⟩
        ∧ APICache.Get (APICache.Set ac k v ttl t) k tg = none) := by
  refine ⟨?_, ?_, ?_⟩
  · simp [APICache.Get, freshCache, ccacheGet]
  · simp [APICache.Get, APICache.Set, ccacheGet, ccacheSet, itemExpired]
  · intro hx
    constructor
    · simp [APICache.Set, ccacheGet, ccacheSet]
    · simp [APICache.Get, APICache.Set, ccacheGet, ccacheSet, itemExpired,
        hx]

/-- C2 witness: after Set("a", 42, ttl 5) at time 0, at time 10 the
underlying store still holds the item but Get returns absent; and on a
fresh cache Get("a") is absent. -/
theorem apiCache_get_absent_iff_witness :
    APICache.Get (freshCache Nat) "a" 10 = none
    ∧ ccacheGet (APICache.Set (freshCache Nat) "a" 42 5 0).cache "a"
        = some ⟨42, 5⟩
    ∧ APICache.Get (APICache.Set (freshCache Nat) "a" 42 5 0) "a" 10
        = none := by
  have h := apiCache_get_absent_iff (freshCache Nat) "a" 42 5 0 10
  exact ⟨h.1, (h.2.2 (by decide)).1, (h.2.2 (by decide)).2⟩

/-- C5: Get and Set never fail observably: Get always returns either absent
or a stored item (it has no error outcome and, being total, never aborts),
Set always yields a cache, and the null-object cache with no backing
entries degrades to always-miss. -/
theorem apiCache_never_fails {α : Type} (ac : APICache α) (k : String)
    (now : Int) (v : α) (dur : Int) :
    ((APICache.Get ac k now = none)
      ∨ ∃ i, APICache.Get ac k now = some i)
    ∧ (∃ ac2, APICache.Set ac k v dur now = ac2)
    ∧ APICache.Get (freshCache α) k now = none := by
  refine ⟨?_, ⟨_, rfl⟩, by simp [APICache.Get, freshCache, ccacheGet]⟩
  cases hx : APICache.Get ac k now with
  | none => exact Or.inl rfl
  | some i => exact Or.inr ⟨i, rfl⟩

/-- C1: the methods Get and Set themselves perform no counter operation
(their action on the metrics state is the identity); the caller-side
accounting, modelled from the spec, increments the cache counter exactly
once per call: at (name, "miss") when Get returns absent, at (name, "hit")
when Get returns a non-expired entry, and at (name, "set") for Set, with
every other label pair unchanged. -/
theorem cache_counter_accounting {α : Type} (name : String)
    (ac : APICache α) (key : String) (now : Int) (m : MetricsState)
    (v : α) (dur : Int) :
    (APICache.GetWithMetrics ac key now m).2 = m
    ∧ (APICache.SetWithMetrics ac key v dur now m).2 = m
    ∧ (APICache.Get ac key now = none →
        (accountedGet name ac key now m).2.awsCache (name, "miss")
          = m.awsCache (name, "miss") + 1
        ∧ ∀ l, l ≠ (name, "miss") →
            (accountedGet name ac key now m).2.awsCache l = m.awsCache l)
    ∧ (∀ i, APICache.Get ac key now = some i →
        (accountedGet name ac key now m).2.awsCache (name, "hit")
          = m.awsCache (name, "hit") + 1
        ∧ ∀ l, l ≠ (name, "hit") →
            (accountedGet name ac key now m).2.awsCache l = m.awsCache l)
    ∧ ((accountedSet name ac key v dur now m).2.awsCache (name, "set")
          = m.awsCache (name, "set") + 1
        ∧ ∀ l, l ≠ (name, "set") →
            (accountedSet name ac key v dur now m).2.awsCache l
              = m.awsCache l) := by
  refine ⟨rfl, rfl, ?_, ?_, ?_⟩
  · intro hx
    refine ⟨?_, ?_⟩
    · simp [accountedGet, hx, incCounter]
    · intro l hl
      simp [accountedGet, hx, incCounter, hl]
  · intro i hx
    refine ⟨?_, ?_⟩
    · simp [accountedGet, hx, incCounter]
    · intro l hl
      simp [accountedGet, hx, incCounter, hl]
  · refine ⟨?_, ?_⟩
    · simp [accountedSet, incCounter]
    · intro l hl
      simp [accountedSet, incCounter, hl]

/-- C1 witness: on a fresh cache with zeroed metrics, an accounted
Get("k") under cache name "subnets" is a miss and raises
(subnets, miss) from 0 to 1 while leaving (subnets, hit) at 0; an
accounted Set raises (subnets, set) to 1; and the raw Get and Set methods
leave the metrics state unchanged. -/
theorem cache_counter_accounting_witness :
    (APICache.GetWithMetrics (freshCache Nat) "k" 0 zeroMetrics).2
        = zeroMetrics
    ∧ (accountedGet "subnets" (freshCache Nat) "k" 0 zeroMetrics).2.awsCache
        ("subnets", "miss")
        = zeroMetrics.awsCache ("subnets", "miss") + 1
    ∧ (accountedGet "subnets" (freshCache Nat) "k" 0 zeroMetrics).2.awsCache
        ("subnets", "hit")
        = zeroMetrics.awsCache ("subnets", "hit")
    ∧ (accountedSet "subnets" (freshCache Nat) "k" 42 5 0
          zeroMetrics).2.awsCache ("subnets", "set")
        = zeroMetrics.awsCache ("subnets", "set") + 1 := by
  have h := cache_counter_accounting "subnets" (freshCache Nat) "k" 0
    zeroMetrics 42 5
  have hmiss : APICache.Get (freshCache Nat) "k" (0 : Int) = none := by
    simp [APICache.Get, freshCache, ccacheGet]
  exact ⟨h.1, (h.2.2.1 hmiss).1,
    (h.2.2.1 hmiss).2 ("subnets", "hit") (by decide), h.2.2.2.2.1⟩

/-- C3: when the underlying session construction fails, NewSession returns
the nil sentinel and increments the error counter at exactly the label
pair ("AWS", "NewSession"), leaving every other label pair unchanged. -/
theorem newSession_failure (e : String) (m : MetricsState)
    (lg : List String) :
    (NewSession (Except.error e) m lg).1 = none
    ∧ (NewSession (Except.error e) m lg).2.1.awsErrorCount
        ("AWS", "NewSession")
        = m.awsErrorCount ("AWS", "NewSession") + 1
    ∧ ∀ l, l ≠ ("AWS", "NewSession") →
        (NewSession (Except.error e) m lg).2.1.awsErrorCount l
          = m.awsErrorCount l := by
  refine ⟨rfl, ?_, ?_⟩
  · simp [NewSession, incCounter]
  · intro l hl
    simp [NewSession, incCounter, hl]

/-- C3 witness: NewSession on a failed construction with zeroed metrics
returns the nil sentinel, raises ("AWS", "NewSession") from 0 to 1, and
leaves ("EC2", "DescribeSubnets") at 0. -/
theorem newSession_failure_witness :
    (NewSession (Except.error "invalid config") zeroMetrics []).1 = none
    ∧ (NewSession (Except.error "invalid config") zeroMetrics
          []).2.1.awsErrorCount ("AWS", "NewSession")
        = zeroMetrics.awsErrorCount ("AWS", "NewSession") + 1
    ∧ (NewSession (Except.error "invalid config") zeroMetrics
          []).2.1.awsErrorCount ("EC2", "DescribeSubnets")
        = zeroMetrics.awsErrorCount ("EC2", "DescribeSubnets") := by
  have h := newSession_failure "invalid config" zeroMetrics []
  exact ⟨h.1, h.2.1, h.2.2 ("EC2", "DescribeSubnets") (by decide)⟩

/-- C4: a successful NewSession returns a session with the send hook at
the front of the send handler list, and for every request run through the
hook, the request counter at (service name, operation name) taken from the
request metadata rises by exactly one, every other label pair is
unchanged, and exactly one trace line is appended to the log if and only
if the AWSDebug flag is set at send time. -/
theorem newSession_hook_counts (s0 : SessionHandle) (m0 : MetricsState)
    (lg0 : List String) (d : Bool) (r : Request) (m : MetricsState)
    (lg : List String) :
    (NewSession (Except.ok s0) m0 lg0).1
        = some ⟨sendHook :: s0.sendHooks⟩
    ∧ (sendHook d r m lg).1.awsRequest (r.serviceName, r.operationName)
        = m.awsRequest (r.serviceName, r.operationName) + 1
    ∧ (∀ l, l ≠ (r.serviceName, r.operationName) →
        (sendHook d r m lg).1.awsRequest l = m.awsRequest l)
    ∧ (sendHook d r m lg).2
        = (if d then lg ++ [requestLogLine r] else lg) := by
  refine ⟨rfl, ?_, ?_, ?_⟩
  · cases d <;> simp [sendHook, incCounter]
  · intro l hl
    cases d <;> simp [sendHook, incCounter, hl]
  · cases d <;> simp [sendHook]

/-- C4 witness: with debug on, sending one EC2 DescribeSubnets request
through the hook raises (ec2, DescribeSubnets) from 0 to 1, leaves
(s3, GetObject) at 0, and appends exactly the one trace line; the hook
sits at the front of the handler list of the returned session. -/
theorem newSession_hook_counts_witness :
    (NewSession (Except.ok ⟨[]⟩) zeroMetrics []).1 = some ⟨[sendHook]⟩
    ∧ (sendHook true ⟨"ec2", "DescribeSubnets", "op", "payload"⟩
          zeroMetrics []).1.awsRequest ("ec2", "DescribeSubnets")
        = zeroMetrics.awsRequest ("ec2", "DescribeSubnets") + 1
    ∧ (sendHook true ⟨"ec2", "DescribeSubnets", "op", "payload"⟩
          zeroMetrics []).1.awsRequest ("s3", "GetObject")
        = zeroMetrics.awsRequest ("s3", "GetObject")
    ∧ (sendHook true ⟨"ec2", "DescribeSubnets", "op", "payload"⟩
          zeroMetrics []).2
        = [requestLogLine ⟨"ec2", "DescribeSubnets", "op", "payload"⟩] := by
  have h := newSession_hook_counts ⟨[]⟩ zeroMetrics [] true
    ⟨"ec2", "DescribeSubnets", "op", "payload"⟩ zeroMetrics []
  exact ⟨h.1, h.2.1, h.2.2.1 ("s3", "GetObject") (by decide), h.2.2.2⟩

/-- C9: a request sent through a session returned by NewSession departs
exactly once, unchanged, appended after all earlier wire traffic (never
dropped or reordered), and the metrics snapshot recorded at its departure
already contains the hook's counter increment: the hook, a total function,
has run to completion strictly before the request leaves the process and
never aborts it. -/
theorem newSession_hook_before_send (s0 : SessionHandle)
    (h : s0.sendHooks = []) (d : Bool) (r : Request) (m0 m : MetricsState)
    (lg0 lg : List String) (wire : List (Request × MetricsState)) :
    (NewSession (Except.ok s0) m0 lg0).1 = some ⟨[sendHook]⟩
    ∧ sdkSend [sendHook] d r m lg wire
        = ((sendHook d r m lg).1, (sendHook d r m lg).2,
            wire ++ [(r, (sendHook d r m lg).1)])
    ∧ (sendHook d r m lg).1.awsRequest (r.serviceName, r.operationName)
        = m.awsRequest (r.serviceName, r.operationName) + 1 := by
  refine ⟨?_, rfl, ?_⟩
  · simp [NewSession, h]
  · cases d <;> simp [sendHook, incCounter]

/-- C9 witness: with debug off, one EC2 DescribeSubnets request sent
through a freshly built session is transmitted exactly once on an empty
wire, and the metrics snapshot at its departure already shows the counter
at 1. -/
theorem newSession_hook_before_send_witness :
    (NewSession (Except.ok ⟨[]⟩) zeroMetrics []).1 = some ⟨[sendHook]⟩
    ∧ sdkSend [sendHook] false
          ⟨"ec2", "DescribeSubnets", "op", "payload"⟩ zeroMetrics [] []
        = ((sendHook false ⟨"ec2", "DescribeSubnets", "op", "payload"⟩
              zeroMetrics []).1,
            (sendHook false ⟨"ec2", "DescribeSubnets", "op", "payload"⟩
              zeroMetrics []).2,
            [(⟨"ec2", "DescribeSubnets", "op", "payload"⟩,
              (sendHook false ⟨"ec2", "DescribeSubnets", "op", "payload"⟩
                zeroMetrics []).1)])
    ∧ (sendHook false ⟨"ec2", "DescribeSubnets", "op", "payload"⟩
          zeroMetrics []).1.awsRequest ("ec2", "DescribeSubnets")
        = zeroMetrics.awsRequest ("ec2", "DescribeSubnets") + 1 := by
  have h := newSession_hook_before_send ⟨[]⟩ rfl false
    ⟨"ec2", "DescribeSubnets", "op", "payload"⟩ zeroMetrics zeroMetrics
    [] [] []
  exact ⟨h.1, h.2.1, h.2.2⟩
